import Mathlib

/-!
Verification of the splash-animation rendering pipeline of
`kok/splash_animation.py`: procedural glyph geometry, Y-axis rotation,
perspective projection, depth-gradient face coloring, the alpha envelope,
and the driver's error-containment logic, shallowly embedded in Lean.

Numeric convention: Python floats are embedded as exact rationals `ℚ`
(`ℝ` where trigonometric functions occur); Python `int(...)` is
truncation toward zero (`pyInt`); Python operations that raise are
embedded as `Except`/`Option` results or as explicit outcome fields of
an environment record.
-/

/-- Python `int(...)` applied to a rational: truncation toward zero. -/
def pyInt (q : ℚ) : ℤ := if q < 0 then -⌊-q⌋ else ⌊q⌋

/-- `_create_3d_letter_t(size)`: the 16 vertices of the extruded letter T,
in source order (top-bar front 4, top-bar back 4, stem front 4,
stem back 4). -/
def _create_3d_letter_t (size : ℚ) : List (ℚ × ℚ × ℚ) :=
  let thickness := size * 0.2
  let top_height := size * 0.8
  let bottom_bar_width := size * 1.2
  [ (-bottom_bar_width/2, top_height, -thickness/2),
    (bottom_bar_width/2, top_height, -thickness/2),
    (bottom_bar_width/2, top_height - thickness, -thickness/2),
    (-bottom_bar_width/2, top_height - thickness, -thickness/2),
    (-bottom_bar_width/2, top_height, thickness/2),
    (bottom_bar_width/2, top_height, thickness/2),
    (bottom_bar_width/2, top_height - thickness, thickness/2),
    (-bottom_bar_width/2, top_height - thickness, thickness/2),
    (-thickness/2, top_height - thickness, -thickness/2),
    (thickness/2, top_height - thickness, -thickness/2),
    (thickness/2, -top_height, -thickness/2),
    (-thickness/2, -top_height, -thickness/2),
    (-thickness/2, top_height - thickness, thickness/2),
    (thickness/2, top_height - thickness, thickness/2),
    (thickness/2, -top_height, thickness/2),
    (-thickness/2, -top_height, thickness/2) ]

/-- The hard-coded `faces` list of `show_splash`: 12 quads over the 16
vertices (indices are Python ints, hence `ℤ`). -/
def faces : List (List ℤ) :=
  [ [0, 1, 2, 3],
    [4, 5, 6, 7],
    [0, 1, 5, 4],
    [1, 2, 6, 5],
    [2, 3, 7, 6],
    [3, 0, 4, 7],
    [8, 9, 10, 11],
    [12, 13, 14, 15],
    [8, 9, 13, 12],
    [9, 10, 14, 13],
    [10, 11, 15, 14],
    [11, 8, 12, 15] ]

/-- `_rotate_vertex(vertex, angle_y)`: rotation about the Y axis.
Real-valued because of the trigonometric functions. -/
noncomputable def _rotate_vertex (vertex : ℝ × ℝ × ℝ) (angle_y : ℝ) : ℝ × ℝ × ℝ :=
  (vertex.1 * Real.cos angle_y - vertex.2.2 * Real.sin angle_y,
   vertex.2.1,
   vertex.1 * Real.sin angle_y + vertex.2.2 * Real.cos angle_y)

/-- `_project_3d_to_2d(vertex, screen_width, screen_height, distance)`:
perspective projection to integer screen coordinates, retaining the depth.
Python raises `ZeroDivisionError` when `distance + z = 0`; the embedding
returns `none` there. -/
def _project_3d_to_2d (vertex : ℚ × ℚ × ℚ) (screen_width screen_height : ℕ)
    (distance : ℚ) : Option (ℤ × ℤ × ℚ) :=
  let x := vertex.1
  let y := vertex.2.1
  let z := vertex.2.2
  if distance + z = 0 then none
  else
    let scale := distance / (distance + z)
    some (pyInt ((screen_width : ℚ) / 2 + x * scale),
          pyInt ((screen_height : ℚ) / 2 - y * scale),
          z)

/-- C2: for every positive size the geometry generator returns exactly 16
vertices; the renderer's face table has exactly 12 faces, each with exactly
4 indices, all in `[0, 16)`; and the generator is deterministic (equal
sizes give identical vertex lists — in this pure embedding, congruence). -/
theorem letter_geometry_spec (s : ℚ) (_hs : 0 < s) :
    (_create_3d_letter_t s).length = 16 ∧
    faces.length = 12 ∧
    (∀ f ∈ faces, f.length = 4 ∧ ∀ i ∈ f, 0 ≤ i ∧ i < 16) ∧
    (∀ t : ℚ, t = s → _create_3d_letter_t t = _create_3d_letter_t s) := by
  refine ⟨rfl, rfl, by decide, ?_⟩
  intro t ht
  rw [ht]

/-- C2 witness: the geometry and face-table properties at size 150. -/
theorem letter_geometry_spec_witness :
    (_create_3d_letter_t 150).length = 16 ∧
    faces.length = 12 ∧
    (∀ f ∈ faces, f.length = 4 ∧ ∀ i ∈ f, 0 ≤ i ∧ i < 16) ∧
    (∀ t : ℚ, t = 150 → _create_3d_letter_t t = _create_3d_letter_t 150) :=
  letter_geometry_spec 150 (by norm_num)

/-- C5: rotating by 0 radians is the identity, rotating by angle `t` and
then by `-t` returns the original vertex (exactly, in the real-number
embedding, hence within any floating-point tolerance), and the Y
coordinate is invariant under every rotation. -/
theorem rotate_vertex_spec (v : ℝ × ℝ × ℝ) (t : ℝ) :
    _rotate_vertex v 0 = v ∧
    _rotate_vertex (_rotate_vertex v t) (-t) = v ∧
    (_rotate_vertex v t).2.1 = v.2.1 := by
  obtain ⟨x, y, z⟩ := v
  refine ⟨?_, ?_, rfl⟩
  · simp [_rotate_vertex]
  · simp only [_rotate_vertex, Real.cos_neg, Real.sin_neg, Prod.mk.injEq]
    exact ⟨by linear_combination x * Real.sin_sq_add_cos_sq t, trivial,
      by linear_combination z * Real.sin_sq_add_cos_sq t⟩

/-- C6 counterexample: with projection distance 0 (and the origin vertex,
so `distance + z = 0`), the projection raises `ZeroDivisionError`
(embedded: returns `none`) instead of producing `(width/2, height/2, 0)`;
so the claim fails for the distance `D = 0`. -/
theorem project_origin_cex :
    _project_3d_to_2d (0, 0, 0) 2 2 0 = none ∧
    _project_3d_to_2d (0, 0, 0) 2 2 0 ≠ some (1, 1, 0) := by
  have h : _project_3d_to_2d (0, 0, 0) 2 2 0 = none := by
    simp [_project_3d_to_2d]
  refine ⟨h, ?_⟩
  rw [h]
  simp

/-- C6 amended: for every positive screen width and height and every
projection distance `D ≠ 0`, projecting the origin yields exactly
`(width/2, height/2, 0)`, the halving being the integer part (screen
coordinates are integers; for even dimensions this is exactly half). -/
theorem project_origin (w h : ℕ) (_hw : 0 < w) (_hh : 0 < h) (D : ℚ) (hD : D ≠ 0) :
    _project_3d_to_2d (0, 0, 0) w h D = some (((w / 2 : ℕ) : ℤ), ((h / 2 : ℕ) : ℤ), 0) := by
  have hD0 : D + (0 : ℚ) ≠ 0 := by simpa using hD
  have hfloor : ∀ n : ℕ, pyInt ((n : ℚ) / 2) = ((n / 2 : ℕ) : ℤ) := by
    intro n
    have hnn : ¬((n : ℚ) / 2 < 0) := by
      simp only [not_lt]
      positivity
    rw [pyInt, if_neg hnn]
    have h2 : ((n : ℚ) / 2) = ((n : ℚ) / ((2 : ℕ) : ℚ)) := by norm_num
    rw [h2, Rat.floor_natCast_div_natCast]
    omega
  simp only [_project_3d_to_2d]
  rw [if_neg hD0, add_zero, div_self hD]
  simp only [zero_mul, add_zero, mul_one, mul_zero, sub_zero]
  rw [hfloor w, hfloor h]

/-- C6 amended witness: projecting the origin on a 2×2 screen with the
default distance 500 gives exactly `(1, 1, 0)`. -/
theorem project_origin_witness :
    _project_3d_to_2d (0, 0, 0) 2 2 500 = some (((2 / 2 : ℕ) : ℤ), ((2 / 2 : ℕ) : ℤ), 0) :=
  project_origin 2 2 (by norm_num) (by norm_num) 500 (by norm_num)

/-- The per-frame alpha envelope of `show_splash` before the `int(...)`
truncation: fade in on the first 20%, fade out on the last 20%. -/
def alphaQ (progress : ℚ) : ℚ :=
  if progress < 0.2 then 255 * (progress / 0.2)
  else if 0.8 < progress then 255 * (1 - (progress - 0.8) / 0.2)
  else 255

/-- The code's integer alpha for a frame at the given progress. -/
def alpha (progress : ℚ) : ℤ := pyInt (alphaQ progress)

/-- The same envelope over the reals (for the continuity statements). -/
noncomputable def alphaR (progress : ℝ) : ℝ :=
  if progress < 0.2 then 255 * (progress / 0.2)
  else if 0.8 < progress then 255 * (1 - (progress - 0.8) / 0.2)
  else 255

/-- C3: the alpha envelope takes the claimed values at progress
0, 0.2, 0.5, 0.8 and 1; it is the linear ramp 0→255 on [0, 0.2], the
constant 255 on [0.2, 0.8], and the linear ramp 255→0 on [0.8, 1.0]
(stated for the envelope before integer truncation); and the real-valued
envelope is continuous at the segment boundaries 0.2 and 0.8. -/
theorem alpha_envelope_spec :
    alpha 0 = 0 ∧ alpha 0.2 = 255 ∧ alpha 0.5 = 255 ∧ alpha 0.8 = 255 ∧ alpha 1 = 0 ∧
    (∀ p : ℚ, 0 ≤ p → p ≤ 0.2 → alphaQ p = 1275 * p) ∧
    (∀ p : ℚ, 0.2 ≤ p → p ≤ 0.8 → alphaQ p = 255) ∧
    (∀ p : ℚ, 0.8 ≤ p → p ≤ 1 → alphaQ p = 1275 * (1 - p)) ∧
    ContinuousAt alphaR 0.2 ∧ ContinuousAt alphaR 0.8 := by
  have hramp1 : ∀ p : ℚ, 0 ≤ p → p ≤ 0.2 → alphaQ p = 1275 * p := by
    intro p h0 h2
    rcases lt_or_eq_of_le h2 with h | h
    · simp only [alphaQ, if_pos h]
      ring
    · subst h
      norm_num [alphaQ]
  have hramp2 : ∀ p : ℚ, 0.2 ≤ p → p ≤ 0.8 → alphaQ p = 255 := by
    intro p h1 h2
    simp only [alphaQ, if_neg (not_lt.2 h1), if_neg (not_lt.2 h2)]
  have hramp3 : ∀ p : ℚ, 0.8 ≤ p → p ≤ 1 → alphaQ p = 1275 * (1 - p) := by
    intro p h1 h2
    rcases lt_or_eq_of_le h1 with h | h
    · have hn : ¬(p < 0.2) := by linarith
      simp only [alphaQ, if_neg hn, if_pos h]
      ring
    · subst h
      norm_num [alphaQ]
  have hcont1 : ContinuousAt alphaR 0.2 := by
    have hf : ContinuousAt (fun p : ℝ => min (1275 * p) 255) 0.2 :=
      ((continuous_const.mul continuous_id).min continuous_const).continuousAt
    refine hf.congr
      (Filter.eventuallyEq_of_mem (Iio_mem_nhds (show (0.2 : ℝ) < 0.8 by norm_num)) ?_)
    intro p hp
    have hp8 : p < (0.8 : ℝ) := hp
    by_cases hc : p < (0.2 : ℝ)
    · have hmin : min (1275 * p) 255 = 1275 * p := min_eq_left (by linarith)
      simp only [alphaR, if_pos hc, hmin]
      ring
    · have hge : (0.2 : ℝ) ≤ p := not_lt.1 hc
      have hmin : min (1275 * p) 255 = (255 : ℝ) := min_eq_right (by linarith)
      simp only [alphaR, if_neg hc, if_neg (not_lt.2 (le_of_lt hp8)), hmin]
  have hcont2 : ContinuousAt alphaR 0.8 := by
    have hf : ContinuousAt (fun p : ℝ => min (1275 * (1 - p)) 255) 0.8 :=
      ((continuous_const.mul (continuous_const.sub continuous_id)).min
        continuous_const).continuousAt
    refine hf.congr
      (Filter.eventuallyEq_of_mem (Ioi_mem_nhds (show (0.2 : ℝ) < 0.8 by norm_num)) ?_)
    intro p hp
    have hp2 : (0.2 : ℝ) < p := hp
    by_cases hc : (0.8 : ℝ) < p
    · have hmin : min (1275 * (1 - p)) 255 = 1275 * (1 - p) :=
        min_eq_left (by linarith)
      simp only [alphaR, if_neg (not_lt.2 (le_of_lt hp2)), if_pos hc, hmin]
      ring
    · have hle : p ≤ (0.8 : ℝ) := not_lt.1 hc
      have hmin : min (1275 * (1 - p)) 255 = (255 : ℝ) := min_eq_right (by linarith)
      simp only [alphaR, if_neg (not_lt.2 (le_of_lt hp2)), if_neg hc, hmin]
  refine ⟨?_, ?_, ?_, ?_, ?_, hramp1, hramp2, hramp3, hcont1, hcont2⟩
  · norm_num [alpha, alphaQ, pyInt]
  · norm_num [alpha, alphaQ, pyInt]
  · norm_num [alpha, alphaQ, pyInt]
  · norm_num [alpha, alphaQ, pyInt]
  · norm_num [alpha, alphaQ, pyInt]

/-- C3 witness: the three ramp identities at interior sample points
0.1, 0.5 and 0.9. -/
theorem alpha_envelope_spec_witness :
    alphaQ 0.1 = 1275 * 0.1 ∧ alphaQ 0.5 = 255 ∧ alphaQ 0.9 = 1275 * (1 - 0.9) :=
  ⟨alpha_envelope_spec.2.2.2.2.2.1 0.1 (by norm_num) (by norm_num),
   alpha_envelope_spec.2.2.2.2.2.2.1 0.5 (by norm_num) (by norm_num),
   alpha_envelope_spec.2.2.2.2.2.2.2.1 0.9 (by norm_num) (by norm_num)⟩

/-- The code's `color_progress`: normalize the face's average depth by
`(avg_z + 150) / 300`, then clamp to `[0, 1]`
(`max(0, min(1, color_progress))`). -/
def color_progress (avg_z : ℚ) : ℚ := max 0 (min 1 ((avg_z + 150) / 300))

/-- The code's per-face fill RGB from the average depth: the two
gradient branches of `show_splash`, each channel truncated by `int(...)`. -/
def faceRGB (avg_z : ℚ) : ℤ × ℤ × ℤ :=
  if color_progress avg_z < 0.5 then
    (pyInt (0 + (100 - 0) * (color_progress avg_z * 2)),
     pyInt (255 - (255 - 100) * (color_progress avg_z * 2)),
     pyInt 255)
  else
    (pyInt (100 + (255 - 100) * ((color_progress avg_z - 0.5) * 2)),
     pyInt (100 - 100 * ((color_progress avg_z - 0.5) * 2)),
     pyInt (255 - (255 - 150) * ((color_progress avg_z - 0.5) * 2)))

/-- Linear interpolation `a + (b - a) * t`, as in the spec's wording. -/
def lerpQ (a b t : ℚ) : ℚ := a + (b - a) * t

/-- Following the spec's words (refinement reference, not the source):
two-segment piecewise-linear gradient, segment 1 from (0,255,255) at
`color_progress = 0` to (100,100,255) at `0.5`, segment 2 from
(100,100,255) at `0.5` to (255,0,150) at `1`. -/
def gradient_spec_model (cp : ℚ) : ℚ × ℚ × ℚ :=
  if cp < 0.5 then
    (lerpQ 0 100 (cp / 0.5), lerpQ 255 100 (cp / 0.5), lerpQ 255 255 (cp / 0.5))
  else
    (lerpQ 100 255 ((cp - 0.5) / 0.5), lerpQ 100 0 ((cp - 0.5) / 0.5),
     lerpQ 255 150 ((cp - 0.5) / 0.5))

theorem color_progress_bounds (avg_z : ℚ) :
    0 ≤ color_progress avg_z ∧ color_progress avg_z ≤ 1 :=
  ⟨le_max_left _ _, max_le (by norm_num) (min_le_left _ _)⟩

/-- C4: the fill RGB equals (channel-wise, before the common integer
truncation) the spec's two-segment piecewise-linear gradient evaluated at
the clamped `color_progress` of the face's average depth, and the clamp
keeps `color_progress` in `[0, 1]`. -/
theorem face_gradient_spec (avg_z : ℚ) :
    0 ≤ color_progress avg_z ∧ color_progress avg_z ≤ 1 ∧
    faceRGB avg_z = (pyInt (gradient_spec_model (color_progress avg_z)).1,
                     pyInt (gradient_spec_model (color_progress avg_z)).2.1,
                     pyInt (gradient_spec_model (color_progress avg_z)).2.2) := by
  obtain ⟨h0, h1⟩ := color_progress_bounds avg_z
  refine ⟨h0, h1, ?_⟩
  by_cases h : color_progress avg_z < 0.5
  · simp only [faceRGB, gradient_spec_model, lerpQ, if_pos h, Prod.mk.injEq]
    refine ⟨?_, ?_, ?_⟩ <;> (congr 1; ring)
  · simp only [faceRGB, gradient_spec_model, lerpQ, if_neg h, Prod.mk.injEq]
    refine ⟨?_, ?_, ?_⟩ <;> (congr 1; ring)

theorem pyInt_bounds {q : ℚ} {n : ℤ} (h0 : 0 ≤ q) (h1 : q ≤ (n : ℚ)) :
    0 ≤ pyInt q ∧ pyInt q ≤ n := by
  rw [pyInt, if_neg (not_lt.2 h0)]
  constructor
  · exact Int.le_floor.2 (by exact_mod_cast h0)
  · have := Int.floor_mono h1
    rwa [Int.floor_intCast] at this

/-- The outline color's alpha handed to the stroke draw:
`int(alpha * 0.3)`. -/
def outline_alpha (a : ℤ) : ℤ := pyInt ((a : ℚ) * 0.3)

theorem alphaQ_bounds {p : ℚ} (hp0 : 0 ≤ p) (hp1 : p ≤ 1) :
    0 ≤ alphaQ p ∧ alphaQ p ≤ 255 := by
  rw [alphaQ]
  by_cases h2 : p < 0.2
  · rw [if_pos h2]
    have he : 255 * (p / 0.2) = 1275 * p := by ring
    rw [he]
    constructor
    · positivity
    · nlinarith
  · rw [if_neg h2]
    by_cases h8 : 0.8 < p
    · rw [if_pos h8]
      have he : 255 * (1 - (p - 0.8) / 0.2) = 1275 * (1 - p) := by ring
      rw [he]
      constructor
      · nlinarith
      · nlinarith
    · rw [if_neg h8]
      norm_num

theorem faceRGB_bounds (avg_z : ℚ) :
    0 ≤ (faceRGB avg_z).1 ∧ (faceRGB avg_z).1 ≤ 255 ∧
    0 ≤ (faceRGB avg_z).2.1 ∧ (faceRGB avg_z).2.1 ≤ 255 ∧
    0 ≤ (faceRGB avg_z).2.2 ∧ (faceRGB avg_z).2.2 ≤ 255 := by
  obtain ⟨h0, h1⟩ := color_progress_bounds avg_z
  set cp := color_progress avg_z with hcp
  rw [faceRGB, ← hcp]
  by_cases h : cp < 0.5
  · rw [if_pos h]
    have hr := pyInt_bounds (q := 0 + (100 - 0) * (cp * 2)) (n := 255)
      (by nlinarith) (by push_cast; nlinarith)
    have hg := pyInt_bounds (q := 255 - (255 - 100) * (cp * 2)) (n := 255)
      (by nlinarith) (by push_cast; nlinarith)
    have hb := pyInt_bounds (q := 255) (n := 255) (by norm_num) (by norm_num)
    exact ⟨hr.1, hr.2, hg.1, hg.2, hb.1, hb.2⟩
  · rw [if_neg h]
    have h5 : (0.5 : ℚ) ≤ cp := not_lt.1 h
    have hr := pyInt_bounds (q := 100 + (255 - 100) * ((cp - 0.5) * 2)) (n := 255)
      (by nlinarith) (by push_cast; nlinarith)
    have hg := pyInt_bounds (q := 100 - 100 * ((cp - 0.5) * 2)) (n := 255)
      (by nlinarith) (by push_cast; nlinarith)
    have hb := pyInt_bounds (q := 255 - (255 - 150) * ((cp - 0.5) * 2)) (n := 255)
      (by nlinarith) (by push_cast; nlinarith)
    exact ⟨hr.1, hr.2, hg.1, hg.2, hb.1, hb.2⟩

/-- C8: for every progress in `[0, 1)` and every face average depth, each
color component handed to the drawing primitives — fill r, g, b and alpha,
and the outline's alpha — lies within `[0, 255]`. -/
theorem color_channels_bounded (p : ℚ) (hp0 : 0 ≤ p) (hp1 : p < 1) (avg_z : ℚ) :
    0 ≤ alpha p ∧ alpha p ≤ 255 ∧
    0 ≤ (faceRGB avg_z).1 ∧ (faceRGB avg_z).1 ≤ 255 ∧
    0 ≤ (faceRGB avg_z).2.1 ∧ (faceRGB avg_z).2.1 ≤ 255 ∧
    0 ≤ (faceRGB avg_z).2.2 ∧ (faceRGB avg_z).2.2 ≤ 255 ∧
    0 ≤ outline_alpha (alpha p) ∧ outline_alpha (alpha p) ≤ 255 := by
  obtain ⟨hq0, hq255⟩ := alphaQ_bounds hp0 (le_of_lt hp1)
  have ha : 0 ≤ alpha p ∧ alpha p ≤ 255 := by
    rw [alpha]
    exact pyInt_bounds hq0 (by exact_mod_cast hq255)
  have hrgb := faceRGB_bounds avg_z
  have ho : 0 ≤ outline_alpha (alpha p) ∧ outline_alpha (alpha p) ≤ 255 := by
    rw [outline_alpha]
    have hc0 : (0 : ℚ) ≤ (alpha p : ℚ) := by exact_mod_cast ha.1
    have hc255 : ((alpha p : ℤ) : ℚ) ≤ 255 := by exact_mod_cast ha.2
    exact pyInt_bounds (by positivity) (by push_cast; nlinarith)
  exact ⟨ha.1, ha.2, hrgb.1, hrgb.2.1, hrgb.2.2.1, hrgb.2.2.2.1,
    hrgb.2.2.2.2.1, hrgb.2.2.2.2.2, ho.1, ho.2⟩

/-- C8 witness: the channel bounds at progress 1/2 and average depth 0. -/
theorem color_channels_bounded_witness :
    0 ≤ alpha (1/2) ∧ alpha (1/2) ≤ 255 ∧
    0 ≤ (faceRGB 0).1 ∧ (faceRGB 0).1 ≤ 255 ∧
    0 ≤ (faceRGB 0).2.1 ∧ (faceRGB 0).2.1 ≤ 255 ∧
    0 ≤ (faceRGB 0).2.2 ∧ (faceRGB 0).2.2 ≤ 255 ∧
    0 ≤ outline_alpha (alpha (1/2)) ∧ outline_alpha (alpha (1/2)) ≤ 255 :=
  color_channels_bounded (1/2) (by norm_num) (by norm_num) 0

theorem vertex_xz_bounds :
    ∀ v ∈ _create_3d_letter_t 150, |v.1| ≤ 90 ∧ |v.2.2| ≤ 15 := by
  intro v hv
  fin_cases hv <;> constructor <;> rw [abs_le] <;> constructor <;> norm_num

/-- C9: for every vertex of the letter geometry at size 150 and every
rotation angle, the rotated z satisfies `500 + z > 0` (the rotated depth
is bounded in magnitude by `|x| + |z| ≤ 90 + 15`, far below the projection
distance 500), so the perspective division has a positive, in particular
nonzero, denominator; over the reals this division is then defined and
finite. -/
theorem projection_denominator_pos (v : ℚ × ℚ × ℚ)
    (hv : v ∈ _create_3d_letter_t 150) (t : ℝ) :
    0 < (500 : ℝ) + (_rotate_vertex ((v.1 : ℝ), (v.2.1 : ℝ), (v.2.2 : ℝ)) t).2.2 ∧
    (500 : ℝ) + (_rotate_vertex ((v.1 : ℝ), (v.2.1 : ℝ), (v.2.2 : ℝ)) t).2.2 ≠ 0 := by
  obtain ⟨hx, hz⟩ := vertex_xz_bounds v hv
  have hxR : |(v.1 : ℝ)| ≤ 90 := by exact_mod_cast hx
  have hzR : |(v.2.2 : ℝ)| ≤ 15 := by exact_mod_cast hz
  have hsin := Real.abs_sin_le_one t
  have hcos := Real.abs_cos_le_one t
  have hzrot : |(v.1 : ℝ) * Real.sin t + (v.2.2 : ℝ) * Real.cos t| ≤ 105 := by
    calc |(v.1 : ℝ) * Real.sin t + (v.2.2 : ℝ) * Real.cos t|
        ≤ |(v.1 : ℝ) * Real.sin t| + |(v.2.2 : ℝ) * Real.cos t| := abs_add _ _
      _ = |(v.1 : ℝ)| * |Real.sin t| + |(v.2.2 : ℝ)| * |Real.cos t| := by
          rw [abs_mul, abs_mul]
      _ ≤ 90 * 1 + 15 * 1 := by
          exact add_le_add
            (mul_le_mul hxR hsin (abs_nonneg _) (by norm_num))
            (mul_le_mul hzR hcos (abs_nonneg _) (by norm_num))
      _ = 105 := by norm_num
  have hlow := (abs_le.1 hzrot).1
  have hpos : 0 < (500 : ℝ) + (_rotate_vertex ((v.1 : ℝ), (v.2.1 : ℝ), (v.2.2 : ℝ)) t).2.2 := by
    simp only [_rotate_vertex]
    linarith
  exact ⟨hpos, ne_of_gt hpos⟩

/-- C9 witness: positivity of the denominator at the first vertex of the
size-150 letter and angle 0. -/
theorem projection_denominator_pos_witness :
    0 < (500 : ℝ) + (_rotate_vertex (((-90 : ℚ) : ℝ), ((120 : ℚ) : ℝ), ((-15 : ℚ) : ℝ)) 0).2.2 ∧
    (500 : ℝ) + (_rotate_vertex (((-90 : ℚ) : ℝ), ((120 : ℚ) : ℝ), ((-15 : ℚ) : ℝ)) 0).2.2 ≠ 0 :=
  projection_denominator_pos (-90, 120, -15) (by norm_num [_create_3d_letter_t]) 0

/-- Python list indexing `l[i]`: nonnegative indices from the front,
negative indices not below `-len(l)` from the end; `none` models an
`IndexError`. -/
def pyGet {α : Type} (l : List α) (i : ℤ) : Option α :=
  if 0 ≤ i then l[i.toNat]?
  else if -(l.length : ℤ) ≤ i then l[((l.length : ℤ) + i).toNat]?
  else none

/-- The per-face gathering loop of `show_splash`: each index passing the
`idx < len(projected_vertices)` guard is looked up with Python indexing
(`points.append((sx, sy))`, `z_values.append(sz)`); an index below
`-len` would raise an uncaught `IndexError` (`Except.error`). -/
def gather_points (pv : List (ℤ × ℤ × ℚ)) : List ℤ → Except Unit (List ((ℤ × ℤ) × ℚ))
  | [] => Except.ok []
  | i :: rest =>
    if i < (pv.length : ℤ) then
      match pyGet pv i with
      | some (sx, sy, sz) => (gather_points pv rest).map (fun l => ((sx, sy), sz) :: l)
      | none => Except.error ()
    else gather_points pv rest

/-- One filled polygon plus its outline stroke, as handed to the drawing
primitives (`pygame.draw.polygon` twice). -/
structure Draw where
  points : List (ℤ × ℤ)
  fill : ℤ × ℤ × ℤ × ℤ
  edge : ℤ × ℤ × ℤ × ℤ
deriving DecidableEq

/-- The draw emitted for a face whose gathered points were kept:
average-depth gradient fill at the frame alpha, plus the near-white
outline at `int(alpha * 0.3)`. -/
def face_draw (pts : List ((ℤ × ℤ) × ℚ)) (a : ℤ) : Draw :=
  let avg_z := (pts.map (fun q => q.2)).sum / (pts.length : ℚ)
  { points := pts.map (fun q => q.1)
    fill := ((faceRGB avg_z).1, (faceRGB avg_z).2.1, (faceRGB avg_z).2.2, a)
    edge := (255, 255, 255, outline_alpha a) }

/-- The per-frame face loop of `show_splash`: for each face, gather the
guarded points; draw exactly when 4 points were gathered. -/
def render_faces (pv : List (ℤ × ℤ × ℚ)) (a : ℤ) :
    List (List ℤ) → Except Unit (List Draw)
  | [] => Except.ok []
  | f :: rest =>
    match gather_points pv f with
    | Except.error e => Except.error e
    | Except.ok pts =>
      if pts.length = 4 then
        (render_faces pv a rest).map (fun l => face_draw pts a :: l)
      else render_faces pv a rest

theorem pyGet_isSome {α : Type} (l : List α) (i : ℤ)
    (hlo : -(l.length : ℤ) ≤ i) (hhi : i < (l.length : ℤ)) :
    ∃ x, pyGet l i = some x := by
  rw [pyGet]
  by_cases h0 : 0 ≤ i
  · rw [if_pos h0]
    have hn : i.toNat < l.length := by omega
    exact ⟨l[i.toNat], List.getElem?_eq_getElem hn⟩
  · rw [if_neg h0, if_pos hlo]
    have hn : ((l.length : ℤ) + i).toNat < l.length := by omega
    exact ⟨_, List.getElem?_eq_getElem hn⟩

theorem gather_points_ok (pv : List (ℤ × ℤ × ℚ)) :
    ∀ f : List ℤ, (∀ i ∈ f, -(pv.length : ℤ) ≤ i) →
      ∃ pts, gather_points pv f = Except.ok pts ∧
        pts.length = f.countP (fun i => decide (i < (pv.length : ℤ))) := by
  intro f
  induction f with
  | nil =>
    intro _
    exact ⟨[], rfl, by simp⟩
  | cons i rest ih =>
    intro h
    obtain ⟨pts, hok, hcnt⟩ := ih (fun j hj => h j (List.mem_cons_of_mem _ hj))
    by_cases hi : i < (pv.length : ℤ)
    · obtain ⟨x, hx⟩ := pyGet_isSome pv i (h i (List.mem_cons_self _ _)) hi
      obtain ⟨sx, sy, sz⟩ := x
      refine ⟨((sx, sy), sz) :: pts, ?_, ?_⟩
      · simp only [gather_points, if_pos hi, hx, hok, Except.map]
      · simp [List.countP_cons, hi, hcnt]
    · refine ⟨pts, ?_, ?_⟩
      · simp only [gather_points, if_neg hi]
        exact hok
      · simp [List.countP_cons, hi, hcnt]

/-- C7 counterexample: a face referencing the out-of-range vertex index
-1 (indices into the vertex array are `[0, len)`) is NOT skipped: with
four projected vertices, the face `[-1, 0, 1, 2]` passes the guard and is
drawn (Python's negative indexing picks the last vertex), so the frame's
draw list is not empty. -/
theorem face_skip_too_large_cex :
    render_faces [((0 : ℤ), (0 : ℤ), (0 : ℚ)), (1, 1, 0), (2, 2, 0), (3, 3, 0)] 255
      [[-1, 0, 1, 2]] ≠ Except.ok [] := by
  have hg : gather_points [((0 : ℤ), (0 : ℤ), (0 : ℚ)), (1, 1, 0), (2, 2, 0), (3, 3, 0)]
      [-1, 0, 1, 2] =
      Except.ok [(((3 : ℤ), (3 : ℤ)), (0 : ℚ)), (((0 : ℤ), (0 : ℤ)), (0 : ℚ)),
        (((1 : ℤ), (1 : ℤ)), (0 : ℚ)), (((2 : ℤ), (2 : ℤ)), (0 : ℚ))] := by
    rfl
  simp only [render_faces, hg]
  simp [Except.map]

/-- C7 amended: a face (of the usual 4 indices) containing an index that
is too large (`≥ len`), with no index below `-len` (so no lookup raises),
is skipped for that frame — it contributes no polygon and the remaining
faces render exactly as without it; frames are independent computations,
so subsequent frames are unaffected. -/
theorem face_skip_too_large (pv : List (ℤ × ℤ × ℚ)) (a : ℤ) (f : List ℤ)
    (rest : List (List ℤ)) (hlen : f.length = 4)
    (hlo : ∀ i ∈ f, -(pv.length : ℤ) ≤ i)
    (hbig : ∃ i ∈ f, (pv.length : ℤ) ≤ i) :
    render_faces pv a (f :: rest) = render_faces pv a rest := by
  obtain ⟨pts, hok, hcnt⟩ := gather_points_ok pv f hlo
  have hne : ¬(pts.length = 4) := by
    intro h4
    have hall : ∀ i ∈ f, (fun i => decide (i < (pv.length : ℤ))) i = true := by
      apply List.countP_eq_length.mp
      rw [← hcnt, h4, hlen]
    obtain ⟨j, hj, hjge⟩ := hbig
    have := hall j hj
    simp only [decide_eq_true_eq] at this
    omega
  simp only [render_faces, hok]
  rw [if_neg hne]

/-- C7 amended witness: with one projected vertex, the face `[5, 0, 0, 0]`
(index 5 too large) is skipped and the frame renders as without it. -/
theorem face_skip_too_large_witness :
    render_faces [((0 : ℤ), (0 : ℤ), (0 : ℚ))] 3 [[5, 0, 0, 0]] =
      render_faces [((0 : ℤ), (0 : ℤ), (0 : ℚ))] 3 [] :=
  face_skip_too_large _ 3 [5, 0, 0, 0] [] rfl (by decide) (by decide)

/-- C10: the per-face index guard `idx < len` rejects only indices that
are too large. For a face of 4 indices, each within `[-len, len)` and at
least one negative, every index passes the guard, the negative indices
resolve end-relatively, 4 points are gathered, and the face is drawn
(prepended to the rest of the frame's draw list) rather than skipped. -/
theorem negative_index_face_drawn (pv : List (ℤ × ℤ × ℚ)) (a : ℤ) (f : List ℤ)
    (rest : List (List ℤ)) (hlen : f.length = 4)
    (hin : ∀ i ∈ f, -(pv.length : ℤ) ≤ i ∧ i < (pv.length : ℤ))
    (hneg : ∃ i ∈ f, i < 0) :
    (∀ i ∈ f, i < (pv.length : ℤ)) ∧
    (∀ i ∈ f, i < 0 → pyGet pv i = pv[((pv.length : ℤ) + i).toNat]?) ∧
    ∃ pts, gather_points pv f = Except.ok pts ∧ pts.length = 4 ∧
      render_faces pv a (f :: rest) =
        (render_faces pv a rest).map (fun l => face_draw pts a :: l) := by
  obtain ⟨j, hj, hjneg⟩ := hneg
  refine ⟨fun i hi => (hin i hi).2, ?_, ?_⟩
  · intro i hi hineg
    rw [pyGet, if_neg (not_le.2 hineg), if_pos (hin i hi).1]
  · obtain ⟨pts, hok, hcnt⟩ := gather_points_ok pv f (fun i hi => (hin i hi).1)
    have h4 : pts.length = 4 := by
      rw [hcnt, ← hlen]
      apply List.countP_eq_length.mpr
      intro i hi
      simp only [decide_eq_true_eq]
      exact (hin i hi).2
    refine ⟨pts, hok, h4, ?_⟩
    simp only [render_faces, hok]
    rw [if_pos h4]

/-- C10 witness: with two projected vertices, the face `[-1, -2, 0, 1]`
passes the guard, gathers 4 points and is drawn. -/
theorem negative_index_face_drawn_witness :
    (∀ i ∈ [(-1 : ℤ), -2, 0, 1], i < (([((0 : ℤ), (0 : ℤ), (0 : ℚ)), (1, 1, 0)] : List (ℤ × ℤ × ℚ)).length : ℤ)) ∧
    (∀ i ∈ [(-1 : ℤ), -2, 0, 1], i < 0 →
      pyGet [((0 : ℤ), (0 : ℤ), (0 : ℚ)), (1, 1, 0)] i =
        ([((0 : ℤ), (0 : ℤ), (0 : ℚ)), (1, 1, 0)] : List (ℤ × ℤ × ℚ))[((([((0 : ℤ), (0 : ℤ), (0 : ℚ)), (1, 1, 0)] : List (ℤ × ℤ × ℚ)).length : ℤ) + i).toNat]?) ∧
    ∃ pts, gather_points [((0 : ℤ), (0 : ℤ), (0 : ℚ)), (1, 1, 0)] [-1, -2, 0, 1] =
        Except.ok pts ∧ pts.length = 4 ∧
      render_faces [((0 : ℤ), (0 : ℤ), (0 : ℚ)), (1, 1, 0)] 0 [[-1, -2, 0, 1]] =
        (render_faces [((0 : ℤ), (0 : ℤ), (0 : ℚ)), (1, 1, 0)] 0 []).map
          (fun l => face_draw pts 0 :: l) :=
  negative_index_face_drawn [((0 : ℤ), (0 : ℤ), (0 : ℚ)), (1, 1, 0)] 0 [-1, -2, 0, 1] []
    rfl (by decide) (by decide)

/-- The observable per-frame inputs of the animation loop: whether an
uncaught exception occurs somewhere in the frame body, whether a
quit/escape event arrived, and the elapsed milliseconds. -/
structure FrameIn where
  err : Bool
  quit : Bool
  elapsed : Nat
deriving DecidableEq

/-- The environment `show_splash` runs against: the outcome of the
capability probe `_can_show_splash` (platform display check plus pygame
probe), of the `pygame`/`numpy` imports, of each setup step inside the
`try` block, and the frame-loop inputs. -/
structure Env where
  displayOk : Bool
  importsOk : Bool
  initOk : Bool
  infoOk : Bool
  setModeOk : Bool
  fillOk : Bool
  frames : List FrameIn
deriving DecidableEq

/-- Observable effects, recorded in order; `createSurface` is the
`pygame.display.set_mode` call that creates the presentation surface. -/
inductive Effect where
  | probe
  | log
  | initStep
  | info
  | createSurface
  | fill
  | frame
  | draw
  | quitStep
deriving DecidableEq

/-- The main animation loop: each frame polls events (a quit/escape event
clears `running`), breaks once `elapsed >= 3000`, otherwise renders and
presents; an uncaught exception anywhere in the frame body aborts the
loop with an error. The loop also ends when no further frame inputs
arrive. -/
def run_frames : List FrameIn → Option Unit × List Effect
  | [] => (none, [])
  | f :: rest =>
    if f.err then (some (), [Effect.frame])
    else if 3000 ≤ f.elapsed then (none, [Effect.frame])
    else if f.quit then (none, [Effect.frame, Effect.draw])
    else
      let r := run_frames rest
      (r.1, Effect.frame :: Effect.draw :: r.2)

/-- The body of the `try` block of `show_splash`: `pygame.init()`, the
display-info query, `set_mode` (surface creation), the colorkey fill,
then the frame loop. The first failing step raises (`some ()`). -/
def run_body (env : Env) : Option Unit × List Effect :=
  if env.initOk = false then (some (), [])
  else if env.infoOk = false then (some (), [Effect.initStep])
  else if env.setModeOk = false then (some (), [Effect.initStep, Effect.info])
  else if env.fillOk = false then
    (some (), [Effect.initStep, Effect.info, Effect.createSurface])
  else
    let r := run_frames env.frames
    (r.1, Effect.initStep :: Effect.info :: Effect.createSurface :: Effect.fill :: r.2)

/-- `show_splash()`: capability probe, imports, then the `try` block; a
raised exception in the body is caught, logged, `pygame.quit()` is
attempted, and `False` is returned. The embedding is a total function —
no exception escapes the boundary by construction. -/
def show_splash (env : Env) : Bool × List Effect :=
  if env.displayOk = false then (false, [Effect.probe])
  else if env.importsOk = false then (false, [Effect.probe, Effect.log])
  else
    match (run_body env).1 with
    | none => (true, Effect.probe :: ((run_body env).2 ++ [Effect.quitStep]))
    | some _ =>
      (false, Effect.probe :: ((run_body env).2 ++ [Effect.log, Effect.quitStep]))

/-- C1: `show_splash` is a total boolean-returning function of its
environment (no exception crosses the boundary); when the capability
probe fails it returns false immediately, with no surface-creation
effect; when the imports fail it returns false; and whenever the body
raises internally, the call returns false and logs a diagnostic. It
returns true only when the body ran without an internal failure. -/
theorem show_splash_no_raise (env : Env) :
    (env.displayOk = false →
      show_splash env = (false, [Effect.probe]) ∧
      Effect.createSurface ∉ (show_splash env).2) ∧
    (env.importsOk = false → (show_splash env).1 = false) ∧
    (env.displayOk = true → env.importsOk = true → (run_body env).1.isSome = true →
      (show_splash env).1 = false ∧ Effect.log ∈ (show_splash env).2) ∧
    ((show_splash env).1 = true → (run_body env).1 = none) := by
  by_cases hd : env.displayOk = false
  · refine ⟨fun _ => ⟨by simp [show_splash, hd], by simp [show_splash, hd]⟩,
      fun _ => by simp [show_splash, hd], fun h1 => by rw [hd] at h1; exact absurd h1 (by simp),
      fun htrue => ?_⟩
    simp [show_splash, hd] at htrue
  · have hd' : env.displayOk = true := by
      cases h : env.displayOk
      · exact absurd h hd
      · rfl
    by_cases hi : env.importsOk = false
    · refine ⟨fun h => absurd h hd, fun _ => by simp [show_splash, hd, hi],
        fun _ h2 => by rw [hi] at h2; exact absurd h2 (by simp), fun htrue => ?_⟩
      simp [show_splash, hd, hi] at htrue
    · have hi' : env.importsOk = true := by
        cases h : env.importsOk
        · exact absurd h hi
        · rfl
      refine ⟨fun h => absurd h hd, fun h => absurd h hi, fun _ _ hsome => ?_, fun htrue => ?_⟩
      · obtain ⟨e, he⟩ := Option.isSome_iff_exists.mp hsome
        constructor
        · simp [show_splash, hd, hi, he]
        · simp [show_splash, hd, hi, he]
      · cases he : (run_body env).1 with
        | none => rfl
        | some e =>
          simp [show_splash, hd, hi, he] at htrue

/-- C1 witness: an environment whose capability probe fails and whose
body would raise at `pygame.init`: the call returns false, creates no
surface, and a body failure implies a false return. -/
theorem show_splash_no_raise_witness :
    (show_splash ⟨false, true, false, true, true, true, []⟩ = (false, [Effect.probe]) ∧
      Effect.createSurface ∉ (show_splash ⟨false, true, false, true, true, true, []⟩).2) ∧
    ((show_splash ⟨false, true, false, true, true, true, []⟩).1 = true →
      (run_body ⟨false, true, false, true, true, true, []⟩).1 = none) :=
  ⟨(show_splash_no_raise ⟨false, true, false, true, true, true, []⟩).1 rfl,
   (show_splash_no_raise ⟨false, true, false, true, true, true, []⟩).2.2.2⟩
